import Mathlib

/-!
Verification of the core of `personal-diary-tui`: the entry store
(`src/diary_state.rs`, `src/diary_entry.rs`, `src/main.rs`) and the
line-aware editing buffer embedded in the UI input loop of `src/ui.rs`
(`get_new_entry`, lines 360-455).

Strings are modelled as lists of characters (`Str`).  Cursor positions in
the editing buffer are byte offsets into the UTF-8 encoding of the text,
exactly as in the Rust source, where `cursor_position` indexes into a Rust
`String` whose indexing primitives (`String::insert`, `String::remove`,
slicing) panic off a character boundary.  Panicking operations are
modelled as `Option`-valued functions returning `none` at a panic.
-/

/-- Strings are lists of Unicode characters. -/
abbrev Str := List Char

/-- Model of Rust `str::contains` for a string needle: `strContains h n`
is true iff `n` occurs as a contiguous substring of `h`.  For valid UTF-8
the byte-level search performed by Rust coincides with this
character-level search, because UTF-8 is self-synchronizing. -/
def strContains : Str → Str → Bool
  | [], n => n.isPrefixOf []
  | h@(_ :: t), n => n.isPrefixOf h || strContains t n

/-- Model of Rust `str::to_lowercase`.  `Char.toLower` lowercases the
ASCII range; the full Unicode table of the Rust standard library is out of
scope, and no claim depends on non-ASCII case folding. -/
def to_lowercase (s : Str) : Str := s.map Char.toLower

/-- Model of Rust `str::trim`: drop whitespace characters from both ends
(`Char.isWhitespace` models `char::is_whitespace` on the characters that
occur in the claims). -/
def trim (s : Str) : Str :=
  ((s.dropWhile Char.isWhitespace).reverse.dropWhile Char.isWhitespace).reverse

/-- Model of Rust `str::split(',')`: split into the (always nonempty) list
of pieces between commas.  An empty string yields one empty piece, and a
trailing comma yields a trailing empty piece, as in Rust. -/
def splitComma : Str → List Str
  | [] => [[]]
  | c :: t =>
    let r := splitComma t
    if c = ',' then [] :: r
    else
      match r with
      | h :: t' => (c :: h) :: t'
      | [] => [[c]]

/-- The tag list derived from the raw comma-separated tag string, from
`src/ui.rs` line 554 (`get_new_entry`) and line 901 (`edit_entry`):
`tags.split(',').map(|s| s.trim().to_string()).collect()`. -/
def tag_list (tags : Str) : List Str := (splitComma tags).map trim

/-! ## UTF-8 byte-offset primitives for the editing buffer -/

/-- The length in bytes of the UTF-8 encoding of a string, modelling Rust
`String::len`. -/
def byteLen : Str → Nat
  | [] => 0
  | c :: t => c.utf8Size + byteLen t

/-- `charIdxOfByte s i` is the character index corresponding to byte
offset `i` of the UTF-8 encoding of `s`, when `i` lies on a character
boundary and `i ≤ byteLen s`; otherwise `none`.  This models Rust's
`str::is_char_boundary` check together with the byte-to-character
position conversion. -/
def charIdxOfByte : Str → Nat → Option Nat
  | _, 0 => some 0
  | [], _ + 1 => none
  | c :: t, i + 1 =>
    if c.utf8Size ≤ i + 1 then
      match charIdxOfByte t (i + 1 - c.utf8Size) with
      | some k => some (k + 1)
      | none => none
    else none

/-- Model of Rust `String::insert(i, c)`: insert character `c` at byte
offset `i`; panics (`none`) when `i` is past the end or not on a
character boundary. -/
def strInsert (s : Str) (i : Nat) (c : Char) : Option Str :=
  match charIdxOfByte s i with
  | some k => some (s.take k ++ c :: s.drop k)
  | none => none

/-- Model of Rust `String::remove(i)`: remove the character starting at
byte offset `i`; panics (`none`) when `i` is at or past the end or not on
a character boundary. -/
def strRemove (s : Str) (i : Nat) : Option Str :=
  match charIdxOfByte s i with
  | some k => if k < s.length then some (s.take k ++ s.drop (k + 1)) else none
  | none => none

/-- Model of the Rust slice `s[..i]`: panics (`none`) when `i` is not a
character boundary. -/
def strTake (s : Str) (i : Nat) : Option Str :=
  match charIdxOfByte s i with
  | some k => some (s.take k)
  | none => none

/-- Model of the Rust slice `s[i..]`: panics (`none`) when `i` is not a
character boundary. -/
def strDrop (s : Str) (i : Nat) : Option Str :=
  match charIdxOfByte s i with
  | some k => some (s.drop k)
  | none => none

/-- Model of Rust `str::rfind('\n')`: the byte offset of the last newline
of `s`, if any. -/
def rfindNewline : Str → Option Nat
  | [] => none
  | c :: t =>
    match rfindNewline t with
    | some i => some (c.utf8Size + i)
    | none => if c = '\n' then some 0 else none

/-- Model of Rust `str::find('\n')`: the byte offset of the first newline
of `s`, if any. -/
def findNewline : Str → Option Nat
  | [] => none
  | c :: t =>
    if c = '\n' then some 0
    else
      match findNewline t with
      | some i => some (c.utf8Size + i)
      | none => none

/-! ## The LineBuffer

The editing buffer of `get_new_entry` (`src/ui.rs` lines 360-455): the
pair of the content string and the byte-offset cursor, with one operation
per decoded key event. -/

/-- The editing buffer state: the content string and the byte-offset
cursor (`self.cursor_position` in the source). -/
structure Buffer where
  text : Str
  cursor : Nat

/-- `KeyCode::Char(c)` handler (`src/ui.rs` 379-383):
`content.insert(self.cursor_position, c); self.cursor_position += 1`. -/
def insert_char (c : Char) (b : Buffer) : Option Buffer :=
  match strInsert b.text b.cursor c with
  | some t => some { text := t, cursor := b.cursor + 1 }
  | none => none

/-- `KeyCode::Enter` handler (`src/ui.rs` 447-451): insert a newline at
the cursor and advance past it. -/
def insert_newline (b : Buffer) : Option Buffer := insert_char '\n' b

/-- `KeyCode::Backspace` handler (`src/ui.rs` 384-390): when the cursor
is positive, `content.remove(self.cursor_position - 1)` and step the
cursor back; otherwise a no-op. -/
def delete_before (b : Buffer) : Option Buffer :=
  if b.cursor > 0 then
    match strRemove b.text (b.cursor - 1) with
    | some t => some { text := t, cursor := b.cursor - 1 }
    | none => none
  else some b

/-- `KeyCode::Delete` handler (`src/ui.rs` 391-396): when the cursor is
before the end, `content.remove(self.cursor_position)`; the cursor stays
put. -/
def delete_at (b : Buffer) : Option Buffer :=
  if b.cursor < byteLen b.text then
    match strRemove b.text b.cursor with
    | some t => some { text := t, cursor := b.cursor }
    | none => none
  else some b

/-- `KeyCode::Left` handler (`src/ui.rs` 397-402). -/
def move_left (b : Buffer) : Option Buffer :=
  some (if b.cursor > 0 then { b with cursor := b.cursor - 1 } else b)

/-- `KeyCode::Right` handler (`src/ui.rs` 403-408). -/
def move_right (b : Buffer) : Option Buffer :=
  some (if b.cursor < byteLen b.text then { b with cursor := b.cursor + 1 } else b)

/-- `KeyCode::Up` handler (`src/ui.rs` 409-423):

```
let current_line_start = content[..cursor].rfind('\n').map(|i| i + 1).unwrap_or(0);
if let Some(prev_line_start) =
    content[..current_line_start.saturating_sub(1)].rfind('\n')
{
    let prev_line_length = current_line_start - prev_line_start - 1;
    let current_column = cursor - current_line_start;
    cursor = prev_line_start + 1 + current_column.min(prev_line_length);
}
```

Nat subtraction is saturating, matching `saturating_sub` (and the other
subtractions never underflow on the values the code reaches). -/
def move_up (b : Buffer) : Option Buffer :=
  match strTake b.text b.cursor with
  | none => none
  | some pre =>
    let cls : Nat :=
      match rfindNewline pre with
      | some i => i + 1
      | none => 0
    match strTake b.text (cls - 1) with
    | none => none
    | some pre2 =>
      match rfindNewline pre2 with
      | none => some b
      | some pls =>
        let pll := cls - pls - 1
        let col := b.cursor - cls
        some { b with cursor := pls + 1 + min col pll }

/-- `KeyCode::Down` handler (`src/ui.rs` 424-446):

```
if let Some(next_line_start) = content[cursor..].find('\n') {
    let current_line_start = content[..cursor].rfind('\n').map(|i| i + 1).unwrap_or(0);
    let current_column = cursor - current_line_start;
    let next_line_end = content[cursor + next_line_start + 1..].find('\n')
        .map(|i| cursor + next_line_start + 1 + i).unwrap_or(content.len());
    let next_line_length = next_line_end - (cursor + next_line_start + 1);
    cursor = cursor + next_line_start + 1 + current_column.min(next_line_length);
}
```
-/
def move_down (b : Buffer) : Option Buffer :=
  match strDrop b.text b.cursor with
  | none => none
  | some post =>
    match findNewline post with
    | none => some b
    | some nls =>
      match strTake b.text b.cursor with
      | none => none
      | some pre =>
        let cls : Nat :=
          match rfindNewline pre with
          | some i => i + 1
          | none => 0
        let col := b.cursor - cls
        match strDrop b.text (b.cursor + nls + 1) with
        | none => none
        | some rest =>
          let nle : Nat :=
            match findNewline rest with
            | some i => b.cursor + nls + 1 + i
            | none => byteLen b.text
          let nll := nle - (b.cursor + nls + 1)
          some { b with cursor := b.cursor + nls + 1 + min col nll }

/-- The decoded edit commands applied to the buffer by the input loop. -/
inductive EditOp where
  | insert (c : Char)
  | newline
  | backspace
  | forwardDelete
  | left
  | right
  | up
  | down

/-- Apply one decoded edit command to the buffer. -/
def applyOp : EditOp → Buffer → Option Buffer
  | .insert c => insert_char c
  | .newline => insert_newline
  | .backspace => delete_before
  | .forwardDelete => delete_at
  | .left => move_left
  | .right => move_right
  | .up => move_up
  | .down => move_down

/-- Apply a sequence of edit commands; a panic anywhere aborts the
session (`none`). -/
def applyOps : List EditOp → Buffer → Option Buffer
  | [], b => some b
  | op :: rest, b =>
    match applyOp op b with
    | some b' => applyOps rest b'
    | none => none

/-! ## The entry store

`src/diary_entry.rs` and `src/diary_state.rs`. -/

/-- `DiaryEntry` (`src/diary_entry.rs`).  The `timestamp` field is a
`chrono::DateTime<Local>`; it is represented here by its serialized
string form, through which it round-trips unchanged. -/
structure DiaryEntry where
  id : Nat
  timestamp : Str
  content : Str
  tags : List Str

/-- `DiaryState` (`src/diary_state.rs`): the entry collection and the
monotonic id counter. -/
structure DiaryState where
  entries : List DiaryEntry
  next_id : Nat

/-- `DiaryState::new` (`src/diary_state.rs` lines 13-18). -/
def DiaryState.new : DiaryState := { entries := [], next_id := 1 }

/-- `DiaryState::search_entries` (`src/diary_state.rs` lines 43-54):
filter the entries whose lowercased content, or one of whose lowercased
tags, contains the lowercased query. -/
def DiaryState.search_entries (s : DiaryState) (query : Str) : List DiaryEntry :=
  s.entries.filter fun e =>
    strContains (to_lowercase e.content) (to_lowercase query) ||
      e.tags.any fun t => strContains (to_lowercase t) (to_lowercase query)

/-! ## Persistence

`save_to_file` serializes the whole state with `serde_json::to_string`
and writes it to `diary_entries.json`; `load_from_file` reads that file
and parses it back.  The serialized blob is modelled as a JSON value;
`serde_json`'s printer and parser are mutually inverse between values and
their printed strings, so the string layer is identified with the value
layer. -/

/-- The fragment of the JSON data model that the derived serializers of
`DiaryState` and `DiaryEntry` produce. -/
inductive Json where
  | num (n : Nat)
  | str (s : Str)
  | arr (elems : List Json)
  | obj (fields : List (Str × Json))

/-- Serde's `Unexpected` rendering of a JSON value inside an
invalid-type error message.  `Unexpected::Str` quotes the offending
string from the blob verbatim, so deserialization error messages depend
on the file's content. -/
def unexpectedDesc : Json → Str
  | .num n => "integer `".toList ++ (Nat.repr n).toList ++ "`".toList
  | .str s => "string \"".toList ++ s ++ "\"".toList
  | .arr _ => "sequence".toList
  | .obj _ => "map".toList

/-- Deserialize a `usize` field, with serde's invalid-type message on
failure.  The serde_json position suffix (`at line L column C`) is
omitted from all modelled messages; it consists of the fixed words and
two numbers and never contains the file-absence text. -/
def decodeUsize : Json → Except Str Nat
  | .num n => .ok n
  | j => .error ("invalid type: ".toList ++ unexpectedDesc j ++ ", expected usize".toList)

/-- Deserialize a `String` field, with serde's invalid-type message on
failure. -/
def decodeString : Json → Except Str Str
  | .str s => .ok s
  | j => .error ("invalid type: ".toList ++ unexpectedDesc j ++ ", expected a string".toList)

/-- Deserialize every element of a JSON array, propagating the first
element's error, as serde's sequence visitor does. -/
def decodeArrE {α : Type} (f : Json → Except Str α) : List Json → Except Str (List α)
  | [] => .ok []
  | j :: rest =>
    match f j with
    | .error m => .error m
    | .ok x =>
      match decodeArrE f rest with
      | .error m => .error m
      | .ok xs => .ok (x :: xs)

/-- Deserialize a `Vec<String>` field, with serde's invalid-type message
when the value is not an array. -/
def decodeStrArr : Json → Except Str (List Str)
  | .arr l => decodeArrE decodeString l
  | j => .error ("invalid type: ".toList ++ unexpectedDesc j ++ ", expected a sequence".toList)

/-- Serialization of one entry by the derived `Serialize` of
`DiaryEntry`. -/
def encodeEntry (e : DiaryEntry) : Json :=
  .obj [("id".toList, .num e.id), ("timestamp".toList, .str e.timestamp),
    ("content".toList, .str e.content), ("tags".toList, .arr (e.tags.map .str))]

/-- Deserialization of one entry by the derived `Deserialize` of
`DiaryEntry`: the fields are consumed in sequence with the first failure
winning, on the canonically ordered object shape that `encodeEntry`
produces; other shapes fail with the corresponding serde message
(missing field, or invalid type with the offending value rendered by
`unexpectedDesc`). -/
def decodeEntry : Json → Except Str DiaryEntry
  | .obj [(k1, j1), (k2, j2), (k3, j3), (k4, j4)] =>
    if k1 = "id".toList ∧ k2 = "timestamp".toList ∧ k3 = "content".toList ∧
        k4 = "tags".toList then
      match decodeUsize j1 with
      | .error m => .error m
      | .ok i =>
        match decodeString j2 with
        | .error m => .error m
        | .ok ts =>
          match decodeString j3 with
          | .error m => .error m
          | .ok c =>
            match decodeStrArr j4 with
            | .error m => .error m
            | .ok tl => .ok { id := i, timestamp := ts, content := c, tags := tl }
    else .error ("missing field `id`".toList)
  | .obj _ => .error ("missing field `id`".toList)
  | j => .error ("invalid type: ".toList ++ unexpectedDesc j ++
      ", expected struct DiaryEntry".toList)

/-- Deserialize the `entries` field, with serde's invalid-type message
when the value is not an array. -/
def decodeEntryArr : Json → Except Str (List DiaryEntry)
  | .arr l => decodeArrE decodeEntry l
  | j => .error ("invalid type: ".toList ++ unexpectedDesc j ++ ", expected a sequence".toList)

/-- Serialization of the whole store by the derived `Serialize` of
`DiaryState` (`serde_json::to_string(&self)` in `save_to_file`). -/
def encodeState (s : DiaryState) : Json :=
  .obj [("entries".toList, .arr (s.entries.map encodeEntry)),
    ("next_id".toList, .num s.next_id)]

/-- Deserialization of the whole store by the derived `Deserialize` of
`DiaryState` (`serde_json::from_str` in `load_from_file`): `entries` then
`next_id` are consumed in sequence with the first failure winning, on the
canonically ordered object shape that `encodeState` produces; other
shapes fail with the corresponding serde message. -/
def decodeState : Json → Except Str DiaryState
  | .obj [(k1, j1), (k2, j2)] =>
    if k1 = "entries".toList ∧ k2 = "next_id".toList then
      match decodeEntryArr j1 with
      | .error m => .error m
      | .ok entries =>
        match decodeUsize j2 with
        | .error m => .error m
        | .ok n => .ok { entries := entries, next_id := n }
    else .error ("missing field `entries`".toList)
  | .obj _ => .error ("missing field `entries`".toList)
  | j => .error ("invalid type: ".toList ++ unexpectedDesc j ++
      ", expected struct DiaryState".toList)

/-- A corrupt persisted blob that parses as JSON but not as a
`DiaryState`: its `next_id` field holds the string
`"No such file or directory"` instead of a number, so the
deserialization error message quotes that string verbatim. -/
def badBlob : Json :=
  .obj [("entries".toList, .arr []),
    ("next_id".toList, .str "No such file or directory".toList)]

/-- `DiaryState::save_to_file` (`src/diary_state.rs` lines 56-60): the
blob written to `diary_entries.json` is the serialization of the state. -/
def save_to_file (s : DiaryState) : Json := encodeState s

/-- The ways reading `diary_entries.json` can go at the operating-system
level, beyond the file being present with some content. -/
inductive IoKind where
  | permissionDenied
  | otherIo

/-- The state of the persisted file as seen by `load_from_file`. -/
inductive FileState where
  | absent
  | present (j : Json)
  | unreadable (k : IoKind)

/-- The errors `load_from_file` can return: `fs::read_to_string` fails
with a not-found or other I/O error, or `serde_json::from_str` fails with
an input-dependent parse-error message (the `corrupt` payload). -/
inductive LoadErr where
  | notFound
  | corrupt (msg : Str)
  | io (k : IoKind)

/-- `DiaryState::load_from_file` (`src/diary_state.rs` lines 62-66): read
the blob (propagating the read error) and parse it (propagating the parse
error together with its message). -/
def load_from_file : FileState → Except LoadErr DiaryState
  | .absent => .error .notFound
  | .unreadable k => .error (.io k)
  | .present j =>
    match decodeState j with
    | .ok s => .ok s
    | .error m => .error (.corrupt m)

/-- The `Display` rendering of each load error, as `e.to_string()` sees
it in `main`: the messages of `std::io::Error` for the Unix error codes,
and the deserializer's own message for a parse failure. -/
def errMsg : LoadErr → Str
  | .notFound => "No such file or directory (os error 2)".toList
  | .corrupt m => m
  | .io .permissionDenied => "Permission denied (os error 13)".toList
  | .io .otherIo => "Input/output error (os error 5)".toList

/-- The startup error message built by `eyre!("Failed to load diary: {}", e)`. -/
def loadFailMsg (e : LoadErr) : Str := "Failed to load diary: ".toList ++ errMsg e

/-- The startup load logic of `main` (`src/main.rs` lines 13-23): on a
load error whose message contains `"No such file or directory"`, start
from `DiaryState::new`; on any other load error, abort with a
`Failed to load diary` error. -/
def startup (fs : FileState) : Except Str DiaryState :=
  match load_from_file fs with
  | .ok s => .ok s
  | .error e =>
    if strContains (errMsg e) "No such file or directory".toList then
      .ok DiaryState.new
    else
      .error (loadFailMsg e)

/-! ## Store mutations and their persistence effect

Every mutating method ends in `self.save_to_file().unwrap()`.  The system
state pairs the in-memory store with the log of blobs written to
`diary_entries.json`, most recent first; an operation that performs no
save leaves the log untouched. -/

/-- The in-memory store together with the write log of the persisted
file. -/
structure Sys where
  store : DiaryState
  writes : List Json

/-- `DiaryState::add_entry` (`src/diary_state.rs` lines 20-25): overwrite
the caller's id with the counter, bump the counter, push, save. -/
def add_entry (sys : Sys) (entry : DiaryEntry) : Sys :=
  let e := { entry with id := sys.store.next_id }
  let st : DiaryState :=
    { entries := sys.store.entries ++ [e], next_id := sys.store.next_id + 1 }
  { store := st, writes := save_to_file st :: sys.writes }

/-- Replace the first entry whose id matches, as
`entries.iter_mut().find(|e| e.id == updated_entry.id)` followed by the
assignment does. -/
def updateFirst (updated : DiaryEntry) : List DiaryEntry → List DiaryEntry
  | [] => []
  | x :: rest =>
    if x.id == updated.id then updated :: rest else x :: updateFirst updated rest

/-- `DiaryState::update_entry` (`src/diary_state.rs` lines 27-32): when
an entry with the given id exists, replace it verbatim and save;
otherwise do nothing at all (no save either). -/
def update_entry (sys : Sys) (updated : DiaryEntry) : Sys :=
  if sys.store.entries.any (fun x => x.id == updated.id) then
    let st : DiaryState :=
      { entries := updateFirst updated sys.store.entries, next_id := sys.store.next_id }
    { store := st, writes := save_to_file st :: sys.writes }
  else sys

/-- `DiaryState::delete_entry` (`src/diary_state.rs` lines 34-37):
`entries.retain(|e| e.id != id)`, then save unconditionally. -/
def delete_entry (sys : Sys) (i : Nat) : Sys :=
  let st : DiaryState :=
    { entries := sys.store.entries.filter (fun e => e.id != i), next_id := sys.store.next_id }
  { store := st, writes := save_to_file st :: sys.writes }

/-- The store mutations `main` can interleave: create (via `add_entry`)
and delete (via `delete_entry`). -/
inductive StoreOp where
  | create (e : DiaryEntry)
  | del (i : Nat)

/-- Apply one store mutation. -/
def applyStoreOp (sys : Sys) : StoreOp → Sys
  | .create e => add_entry sys e
  | .del i => delete_entry sys i

/-- Run a sequence of store mutations. -/
def runStoreOps (sys : Sys) : List StoreOp → Sys
  | [] => sys
  | op :: rest => runStoreOps (applyStoreOp sys op) rest

/-- The ids assigned by the create operations of a run, in order. -/
def issuedIds (sys : Sys) : List StoreOp → List Nat
  | [] => []
  | StoreOp.create e :: rest => sys.store.next_id :: issuedIds (add_entry sys e) rest
  | StoreOp.del i :: rest => issuedIds (delete_entry sys i) rest

/-- The number of create operations in a sequence. -/
def countCreates : List StoreOp → Nat
  | [] => 0
  | StoreOp.create _ :: rest => countCreates rest + 1
  | StoreOp.del _ :: rest => countCreates rest

/-- The system at program start before any entry exists: the fresh store
and an empty write log. -/
def freshSys : Sys := { store := DiaryState.new, writes := [] }

/-- A concrete entry used by the witnesses; its caller-chosen id `5` is
irrelevant to the store. -/
def e0 : DiaryEntry :=
  { id := 5, timestamp := "2026-10-12T00:00:00+00:00".toList,
    content := "hello".toList, tags := ["work".toList] }

/-! ## Theorems -/

theorem isPrefixOf_iff_append (n h : Str) :
    n.isPrefixOf h = true ↔ ∃ suf, h = n ++ suf := by
  induction n generalizing h with
  | nil => simp [List.isPrefixOf]
  | cons a as ih =>
    cases h with
    | nil => simp [List.isPrefixOf]
    | cons b bs =>
      simp only [List.isPrefixOf, Bool.and_eq_true, beq_iff_eq, ih, List.cons_append,
        List.cons.injEq]
      constructor
      · rintro ⟨rfl, suf, rfl⟩
        exact ⟨suf, rfl, rfl⟩
      · rintro ⟨suf, rfl, rfl⟩
        exact ⟨rfl, suf, rfl⟩

theorem strContains_iff (h n : Str) :
    strContains h n = true ↔ ∃ pre suf, h = pre ++ n ++ suf := by
  induction h with
  | nil =>
    constructor
    · intro hc
      rcases (isPrefixOf_iff_append n []).mp hc with ⟨suf, hsuf⟩
      exact ⟨[], suf, by simpa using hsuf⟩
    · rintro ⟨pre, suf, hps⟩
      have hn : n = [] := by
        cases pre <;> cases n <;> simp_all
      subst hn
      exact (isPrefixOf_iff_append [] []).mpr ⟨[], rfl⟩
  | cons c t ih =>
    simp only [strContains, Bool.or_eq_true, isPrefixOf_iff_append, ih]
    constructor
    · rintro (⟨suf, hs⟩ | ⟨pre, suf, hs⟩)
      · exact ⟨[], suf, by simpa using hs⟩
      · exact ⟨c :: pre, suf, by simp [hs]⟩
    · rintro ⟨pre, suf, hs⟩
      cases pre with
      | nil => exact Or.inl ⟨suf, by simpa using hs⟩
      | cons p ps =>
        rw [List.cons_append, List.cons_append] at hs
        injection hs with h1 h2
        exact Or.inr ⟨ps, suf, by simpa using h2⟩

theorem strContains_nil (h : Str) : strContains h [] = true := by
  cases h <;> simp [strContains, List.isPrefixOf]

/-- Claim C1: the spec requires `move_up` on text `"ab\ncd"` with the
cursor at offset 4 to land the cursor at offset 1; the code instead
leaves text and cursor unchanged, because its previous-line lookup
searches for a newline strictly before the current line's starting
newline and finds none when the previous line is the first line of the
buffer. -/
theorem claim1_move_up_second_line_is_noop :
    move_up { text := ['a', 'b', '\n', 'c', 'd'], cursor := 4 } =
      some { text := ['a', 'b', '\n', 'c', 'd'], cursor := 4 } := rfl

/-- Claim C2: inserting the two-byte character `'é'` into an empty buffer
(a state satisfying the cursor invariant) leaves the byte cursor at
offset 1, which is not a character boundary of `"é"`; and the backspace
operation applied to the invariant-satisfying state `("é", 2)` panics,
because `String::remove(1)` is not on a character boundary.  The
operations neither preserve the boundary invariant nor are error-free. -/
theorem claim2_multibyte_breaks_invariant :
    insert_char 'é' { text := [], cursor := 0 } = some { text := ['é'], cursor := 1 } ∧
    charIdxOfByte ['é'] 1 = none ∧
    charIdxOfByte ['é'] 2 = some 1 ∧
    delete_before { text := ['é'], cursor := 2 } = none :=
  ⟨rfl, rfl, rfl, rfl⟩

/-- Claim C9: inserting the two characters `'é', 'é'` into an empty
buffer and then backspacing twice does not return the buffer to its
original state: the second insertion already panics, because the cursor
advanced by one byte over a two-byte character, so `String::insert` is
called off a character boundary. -/
theorem claim9_insert_backspace_multibyte_panics :
    applyOps [.insert 'é', .insert 'é', .backspace, .backspace]
      { text := [], cursor := 0 } = none := rfl

theorem splitComma_all_not_comma (s : Str) (h : ∀ c ∈ s, c ≠ ',') :
    splitComma s = [s] := by
  induction s with
  | nil => rfl
  | cons c t ih =>
    have hc : c ≠ ',' := h c (by simp)
    have ht : ∀ x ∈ t, x ≠ ',' := fun x hx => h x (by simp [hx])
    simp [splitComma, hc, ih ht]

theorem trim_all_whitespace (s : Str) (h : ∀ c ∈ s, c.isWhitespace = true) :
    trim s = [] := by
  have h1 : s.dropWhile Char.isWhitespace = [] :=
    List.dropWhile_eq_nil_iff.mpr fun x hx => h x hx
  simp [trim, h1]

/-- Claim C8: the tag list is the comma-split of the raw string with each
piece trimmed; the raw string `"work, ideas ,  "` yields
`["work", "ideas", ""]`, and an empty or all-whitespace raw string yields
exactly one empty tag. -/
theorem claim8_tag_list_split_trim :
    tag_list "work, ideas ,  ".toList = ["work".toList, "ideas".toList, []] ∧
    ∀ s : Str, s.all Char.isWhitespace = true → tag_list s = [[]] := by
  constructor
  · rfl
  · intro s hall
    have h : ∀ c ∈ s, c.isWhitespace = true := by
      intro c hc
      exact List.all_eq_true.mp hall c hc
    have hnc : ∀ c ∈ s, c ≠ ',' := by
      intro c hc hceq
      have hw := h c hc
      subst hceq
      exact absurd hw (by decide)
    rw [tag_list, splitComma_all_not_comma s hnc]
    simp [trim_all_whitespace s h]

/-- Witness for claim C8 at the concrete all-whitespace raw string `"  "`. -/
theorem claim8_witness :
    ("  ".toList : Str).all Char.isWhitespace = true ∧ tag_list "  ".toList = [[]] :=
  ⟨rfl, claim8_tag_list_split_trim.2 "  ".toList rfl⟩

theorem update_entry_not_found (sys : Sys) (e : DiaryEntry)
    (h : e.id ∉ sys.store.entries.map fun x => x.id) : update_entry sys e = sys := by
  have hany : (sys.store.entries.any fun x => x.id == e.id) = false := by
    rw [List.any_eq_false]
    intro x hx
    simp only [beq_iff_eq]
    intro hxe
    exact h (List.mem_map.mpr ⟨x, hx, hxe⟩)
  simp [update_entry, hany]

/-- Claim C7: updating with an entry whose id is not in the store leaves
the system — the in-memory collection and the persisted file — entirely
unchanged, and signals no error (the operation is total). -/
theorem claim7_update_unknown_id_noop (sys : Sys) (e : DiaryEntry)
    (h : e.id ∉ sys.store.entries.map fun x => x.id) : update_entry sys e = sys :=
  update_entry_not_found sys e h

/-- Witness for claim C7: updating the fresh empty store with `e0`
changes nothing. -/
theorem claim7_witness :
    e0.id ∉ (freshSys.store.entries.map fun x => x.id) ∧
    update_entry freshSys e0 = freshSys :=
  ⟨by decide, claim7_update_unknown_id_noop freshSys e0 (by decide)⟩

/-- Claim C10: deleting an id that is not in the store still rewrites the
persisted file (one more write of the unchanged collection), while
updating with an unknown id performs no write at all: the system is
exactly the one before the call. -/
theorem claim10_delete_writes_update_does_not (sys : Sys) (i : Nat)
    (h : i ∉ sys.store.entries.map fun x => x.id) :
    delete_entry sys i =
      { store := sys.store, writes := save_to_file sys.store :: sys.writes } ∧
    ∀ e : DiaryEntry, e.id = i → update_entry sys e = sys := by
  have hfilter : sys.store.entries.filter (fun e => e.id != i) = sys.store.entries := by
    rw [List.filter_eq_self]
    intro a ha
    simp only [bne_iff_ne, ne_eq]
    intro hai
    exact h (List.mem_map.mpr ⟨a, ha, hai⟩)
  constructor
  · simp [delete_entry, hfilter]
  · intro e he
    exact update_entry_not_found sys e (by rw [he]; exact h)

/-- Witness for claim C10: deleting the absent id 1 from the fresh store
rewrites the file with the unchanged empty collection. -/
theorem claim10_witness :
    (1 : Nat) ∉ (freshSys.store.entries.map fun x => x.id) ∧
    delete_entry freshSys 1 =
      { store := freshSys.store, writes := save_to_file freshSys.store :: freshSys.writes } :=
  ⟨by decide, (claim10_delete_writes_update_does_not freshSys 1 (by decide)).1⟩

theorem decodeArrE_map_str (tags : List Str) :
    decodeArrE decodeString (tags.map Json.str) = Except.ok tags := by
  induction tags with
  | nil => rfl
  | cons t ts ih => simp [decodeArrE, decodeString, ih]

theorem decodeEntry_encodeEntry (e : DiaryEntry) :
    decodeEntry (encodeEntry e) = Except.ok e := by
  simp [decodeEntry, encodeEntry, decodeUsize, decodeString, decodeStrArr,
    decodeArrE_map_str]

theorem decodeArrE_map_encodeEntry (l : List DiaryEntry) :
    decodeArrE decodeEntry (l.map encodeEntry) = Except.ok l := by
  induction l with
  | nil => rfl
  | cons e es ih => simp [decodeArrE, decodeEntry_encodeEntry, ih]

theorem decodeState_encodeState (s : DiaryState) :
    decodeState (encodeState s) = Except.ok s := by
  simp [decodeState, encodeState, decodeEntryArr, decodeUsize,
    decodeArrE_map_encodeEntry]

/-- Claim C4: loading the blob written by save yields exactly the saved
store — the same entry collection and the same next-id counter. -/
theorem claim4_save_load_roundtrip (s : DiaryState) :
    load_from_file (FileState.present (save_to_file s)) = Except.ok s := by
  simp [load_from_file, save_to_file, decodeState_encodeState]

/-- Claim C5: an absent persisted file does yield the fresh empty store
with `next_id = 1` and no entries, and unreadable files and typical
corrupt blobs do abort startup; but the claim's universal statement —
any load failure other than file absence aborts — is false of the code.
`main` classifies load errors by searching the message for
`"No such file or directory"`, and serde's invalid-type message quotes
offending strings from the blob verbatim, so the corrupt blob `badBlob`
(whose `next_id` field is the string `"No such file or directory"`) is
silently replaced by a fresh empty store instead of aborting. -/
theorem claim5_corrupt_blob_can_be_swallowed :
    startup FileState.absent = Except.ok { entries := [], next_id := 1 } ∧
    (∀ k : IoKind,
      startup (FileState.unreadable k) = Except.error (loadFailMsg (LoadErr.io k))) ∧
    startup (FileState.present (Json.num 0)) =
      Except.error ("Failed to load diary: ".toList ++
        "invalid type: integer `0`, expected struct DiaryState".toList) ∧
    decodeState badBlob =
      Except.error
        ("invalid type: string \"No such file or directory\", expected usize".toList) ∧
    startup (FileState.present badBlob) = Except.ok { entries := [], next_id := 1 } := by
  refine ⟨rfl, ?_, rfl, rfl, rfl⟩
  intro k
  cases k <;> rfl

theorem next_id_add_entry (sys : Sys) (e : DiaryEntry) :
    (add_entry sys e).store.next_id = sys.store.next_id + 1 := rfl

theorem next_id_delete_entry (sys : Sys) (i : Nat) :
    (delete_entry sys i).store.next_id = sys.store.next_id := rfl

theorem issuedIds_eq_range (ops : List StoreOp) : ∀ sys : Sys,
    issuedIds sys ops = List.range' sys.store.next_id (countCreates ops) := by
  induction ops with
  | nil => intro sys; rfl
  | cons op rest ih =>
    intro sys
    cases op with
    | create e =>
      simp only [issuedIds, countCreates, ih, next_id_add_entry, List.range'_succ]
    | del i =>
      simp only [issuedIds, countCreates, ih, next_id_delete_entry]

theorem inv_applyStoreOp (sys : Sys) (op : StoreOp)
    (hinv : ∀ e ∈ sys.store.entries, e.id < sys.store.next_id) :
    ∀ e ∈ (applyStoreOp sys op).store.entries, e.id < (applyStoreOp sys op).store.next_id := by
  cases op with
  | create x =>
    intro e he
    simp only [applyStoreOp, add_entry, List.mem_append, List.mem_singleton] at he
    simp only [applyStoreOp, add_entry]
    rcases he with he | he
    · exact Nat.lt_succ_of_lt (hinv e he)
    · subst he
      exact Nat.lt_succ_self _
  | del i =>
    intro e he
    simp only [applyStoreOp, delete_entry, List.mem_filter] at he
    exact hinv e he.1

theorem inv_runStoreOps (ops : List StoreOp) : ∀ sys : Sys,
    (∀ e ∈ sys.store.entries, e.id < sys.store.next_id) →
    ∀ e ∈ (runStoreOps sys ops).store.entries, e.id < (runStoreOps sys ops).store.next_id := by
  induction ops with
  | nil => intro sys h; exact h
  | cons op rest ih =>
    intro sys h
    exact ih (applyStoreOp sys op) (inv_applyStoreOp sys op h)

/-- Claim C3: over every sequence of creates and deletes from the fresh
store, the assigned ids are strictly increasing (hence pairwise
distinct); the id stored by a create is the counter value, whatever id
the caller put in the entry; and an id present in the store at the moment
of a delete is never assigned by any later create. -/
theorem claim3_id_assignment :
    (∀ ops : List StoreOp, (issuedIds freshSys ops).Pairwise (· < ·)) ∧
    (∀ (sys : Sys) (e : DiaryEntry),
      (add_entry sys e).store.entries =
        sys.store.entries ++ [{ e with id := sys.store.next_id }]) ∧
    ∀ (ops₁ : List StoreOp) (i : Nat) (ops₂ : List StoreOp),
      i ∈ (runStoreOps freshSys ops₁).store.entries.map (fun e => e.id) →
      i ∉ issuedIds (delete_entry (runStoreOps freshSys ops₁) i) ops₂ := by
  refine ⟨?_, ?_, ?_⟩
  · intro ops
    rw [issuedIds_eq_range]
    exact List.pairwise_lt_range' _ _
  · intro sys e
    rfl
  · intro ops₁ i ops₂ hmem
    have hinv := inv_runStoreOps ops₁ freshSys (by intro e he; simp [freshSys, DiaryState.new] at he)
    have hi : i < (runStoreOps freshSys ops₁).store.next_id := by
      rcases List.mem_map.mp hmem with ⟨x, hx, hxi⟩
      exact hxi ▸ hinv x hx
    rw [issuedIds_eq_range, next_id_delete_entry]
    intro hin
    rw [List.mem_range'_1] at hin
    exact absurd hi (Nat.not_lt.mpr hin.1)

/-- Witness for claim C3: after one create (which assigns id 1), deleting
id 1 and creating again does not reissue id 1. -/
theorem claim3_witness :
    (1 : Nat) ∈ (runStoreOps freshSys [StoreOp.create e0]).store.entries.map (fun e => e.id) ∧
    (1 : Nat) ∉ issuedIds (delete_entry (runStoreOps freshSys [StoreOp.create e0]) 1)
      [StoreOp.create e0] :=
  ⟨by decide, claim3_id_assignment.2.2 [StoreOp.create e0] 1 [StoreOp.create e0] (by decide)⟩

/-- Claim C6: search returns exactly the entries whose lowercased content
contains the lowercased query as a substring or one of whose lowercased
tags does, as a sublist of the collection (hence in the original
insertion order); the empty query returns every entry.  `search_entries`
is a pure function of the store (`&self` in the source), so the store is
not modified. -/
theorem claim6_search_entries (s : DiaryState) (q : Str) :
    (∀ e : DiaryEntry, e ∈ s.search_entries q ↔
        e ∈ s.entries ∧
          ((∃ pre suf, to_lowercase e.content = pre ++ to_lowercase q ++ suf) ∨
            ∃ t ∈ e.tags, ∃ pre suf, to_lowercase t = pre ++ to_lowercase q ++ suf)) ∧
    (s.search_entries q).Sublist s.entries ∧
    s.search_entries [] = s.entries := by
  refine ⟨?_, List.filter_sublist _, ?_⟩
  · intro e
    simp only [DiaryState.search_entries, List.mem_filter, Bool.or_eq_true, List.any_eq_true,
      strContains_iff]
  · simp only [DiaryState.search_entries]
    rw [List.filter_eq_self]
    intro a _
    simp [to_lowercase, strContains_nil]
